import Mathlib

/-!
Shallow embedding of the node-nntp response pipeline
(`src/lib/streams/multiline.js`: the `MultilineStream` transform and the
`NNTP` session controller) into Lean 4, used to settle the claims of the
natural-language specification against the code.

Strings are modelled as `List Char` (the protocol content is ASCII, so a
JS string is faithfully a list of its characters).  JS `undefined` values
are modelled as `Option.none`, a JS `NaN` produced by `parseInt` as
`Option.none` on the integer side, and a thrown exception (which the
`domain` in `getResponse` turns into an error resolution of the whole
operation) as `Option.none` of the whole computation.
-/

deriving instance DecidableEq for Except

namespace Nntp

/-- JS `String.prototype.trim` restricted to the ASCII whitespace that can
occur in this protocol (space, tab, CR, LF): drop whitespace from both
ends.  `Char.isWhitespace` tests exactly these four characters. -/
def jsTrim (l : List Char) : List Char :=
  ((l.dropWhile Char.isWhitespace).reverse.dropWhile Char.isWhitespace).reverse

/-- Whether the list contains the two-character sequence CR LF. -/
def hasCRLF : List Char → Bool
  | [] => false
  | [_] => false
  | c :: d :: rest => (c = '\r' ∧ d = '\n') || hasCRLF (d :: rest)

/-- JS `str.split("\r\n")`: split on each (leftmost-first) occurrence of
the two-character separator CR LF.  Mirrors JS semantics: the empty string
splits to `[""]`, a string without the separator splits to itself alone.
A non-separator character is prepended to the first piece of the split of
what follows it (the split result is never empty, so `headD`/`tail`
recombine it exactly). -/
def splitCRLF : List Char → List (List Char)
  | [] => [[]]
  | [c] => [[c]]
  | c :: d :: rest =>
    if c = '\r' ∧ d = '\n' then [] :: splitCRLF rest
    else
      let r := splitCRLF (d :: rest)
      (c :: r.headD []) :: r.tail

/-- JS `str.split(sep)` for a one-character separator (used with `'\t'`
by `parseOverview` and with `' '` by `group`), in the same style as
`splitCRLF`. -/
def splitOnChar (sep : Char) : List Char → List (List Char)
  | [] => [[]]
  | c :: rest =>
    if c = sep then [] :: splitOnChar sep rest
    else
      let r := splitOnChar sep rest
      (c :: r.headD []) :: r.tail

example : splitCRLF ("a\r\nbb\r\n").data = [['a'], ['b', 'b'], []] := by decide
example : splitCRLF ("a\r\r\n").data = [['a', '\r'], []] := by decide
example : splitOnChar ' ' ("3 100  x").data = [['3'], ['1', '0', '0'], [], ['x']] := by decide

/-- The multi-line terminator `"." CR LF` that `MultilineStream._transform`
compares against `buffer.substr(-3)`. -/
def TERM : List Char := ['.', '\r', '\n']

/-- What `MultilineStream._transform` pushes once the terminator is seen at
the end of the buffer `b`:
`buffer.slice(0, -3).trim().split("\r\n")`, each element pushed in order. -/
def emitLines (b : List Char) : List (List Char) :=
  splitCRLF (jsTrim (b.take (b.length - 3)))

/-- Running `MultilineStream` over a list of delivered chunks, starting
from the given accumulated buffer.  Each chunk is appended to the buffer;
if the buffer then ends with `"." CR LF` the stream pushes `emitLines`
and ends (later chunks are irrelevant: `this.end()` is called), otherwise
nothing is emitted for that chunk.  `none` means the stream never
completed (no terminator seen). -/
def framerRun (buffer : List Char) : List (List Char) → Option (List (List Char))
  | [] => none
  | c :: cs =>
    let b := buffer ++ c
    if TERM.isSuffixOf b then some (emitLines b) else framerRun b cs

example : framerRun [] [("foo\r\n.\r\n").data] = some [['f', 'o', 'o']] := by decide

example : framerRun [] [("foo.\r\n").data, ("bar\r\n.\r\n").data] = some [['f', 'o', 'o']] := by
  decide

example : framerRun [] [("foo.\r\nbar\r\n.\r\n").data] =
    some [['f', 'o', 'o', '.'], ['b', 'a', 'r']] := by decide

example : framerRun [] [(".\r\n").data] = some [[]] := by decide

/-! ## The session controller (`NNTP` in `src/lib/streams/multiline.js`) -/

/-- The parsed `Response` a pipeline delivers to a command's callback:
status code, status message, and (for multi-line responses) body lines. -/
structure Response where
  status : Nat
  message : List Char
  lines : List (List Char)
deriving DecidableEq

/-- The distinct `Error` values the session controller constructs, one
constructor per distinct `new Error(...)` site, plus `transport` for an
error delivered by `getResponse` itself (socket or pipeline failure). -/
inductive NntpError where
  | transport (msg : List Char)
  | noSuchArticle
  | noSuchGroup
  | passwordRequired
  | unexpectedResponse (status : Nat) (message : List Char)
deriving DecidableEq

/-- Modelled from the spec: the status-code constants exported by
`lib/response.js`, which is not part of the sources; spec section 6 lists
430 as "no such article". -/
def NO_SUCH_ARTICLE : Nat := 430

/-- Modelled from the spec: 221 is "article retrieved" (spec section 6). -/
def ARTICLE_RETRIEVED : Nat := 221

/-- Modelled from the spec: 411 is "no such group" (spec section 6). -/
def NO_SUCH_GROUP : Nat := 411

/-- Modelled from the spec: 211 is "group selected" (spec section 6). -/
def GROUP_SELECTED : Nat := 211

/-- `NNTP.head`'s response callback: on error, forward the error; on a
response, deliver the raw response unchanged.  (The source performs no
status inspection here.) -/
def headHandler : Except NntpError Response → Except NntpError Response
  | .error e => .error e
  | .ok r => .ok r

/-- `NNTP.stat`'s response callback: identical to `head`'s — forward an
error, otherwise deliver the raw response unchanged. -/
def statHandler : Except NntpError Response → Except NntpError Response
  | .error e => .error e
  | .ok r => .ok r

/-- The structured result `NNTP.group` builds from a success response:
`name` is `messageParts[3]`, the numbers are `parseInt` of parts 0..2.
A missing part is JS `undefined` (here `none`); `parseInt` of a missing
or non-numeric part is `NaN` (also `none`). -/
structure GroupResult where
  name : Option (List Char)
  count : Option Int
  first : Option Int
  last : Option Int
deriving DecidableEq

/-- The numeric value of a leading run of decimal digits, `none` if the
run is empty. -/
def leadingDigitsVal (l : List Char) : Option Int :=
  let d := l.takeWhile Char.isDigit
  if d = [] then none
  else some (d.foldl (fun acc c => acc * 10 + (c.toNat - 48 : Int)) 0)

/-- JS `parseInt(s, 10)`: skip leading whitespace, an optional sign, then
the value of the leading digit run; `NaN` (`none`) if there are no
digits. -/
def jsParseInt10 (l : List Char) : Option Int :=
  match l.dropWhile Char.isWhitespace with
  | '-' :: rest => (leadingDigitsVal rest).map (fun n => -n)
  | '+' :: rest => leadingDigitsVal rest
  | t => leadingDigitsVal t

/-- JS `parseInt(x, 10)` where `x` may be `undefined` (an out-of-range
array access): `parseInt(undefined, 10)` is `NaN`. -/
def jsParseIntOpt : Option (List Char) → Option Int
  | none => none
  | some l => jsParseInt10 l

/-- `NNTP.group`'s response callback: errors forward; status
`NO_SUCH_GROUP` becomes the "No such group" error; any other non-211
status becomes the "Unexpected response" error; otherwise the message is
split on spaces and the four fields are read off positionally. -/
def groupHandler : Except NntpError Response → Except NntpError GroupResult
  | .error e => .error e
  | .ok r =>
    if r.status = NO_SUCH_GROUP then .error .noSuchGroup
    else if r.status ≠ GROUP_SELECTED then .error (.unexpectedResponse r.status r.message)
    else
      let parts := splitOnChar ' ' r.message
      .ok { name := parts[3]?
            count := jsParseIntOpt parts[0]?
            first := jsParseIntOpt parts[1]?
            last := jsParseIntOpt parts[2]? }

/-- The result `NNTP.article` delivers: the response lines split into the
headers block and the body at the first blank line. -/
structure ArticleResult where
  headers : List (List Char)
  body : List (List Char)
deriving DecidableEq

/-- The `forEach` loop in `NNTP.article`'s callback: walk the lines with
an `inBody` flag; the first line whose trim is empty (while not yet in
the body) flips the flag and is dropped; every other line goes to
`headers` before the flip and to `body` after it. -/
def articleSplit : Bool → List (List Char) → List (List Char) × List (List Char)
  | _, [] => ([], [])
  | inBody, l :: ls =>
    if jsTrim l = [] ∧ inBody = false then articleSplit true ls
    else
      let (hs, bs) := articleSplit inBody ls
      if inBody then (hs, l :: bs) else (l :: hs, bs)

/-- `NNTP.article`'s response callback: errors forward; status
`NO_SUCH_ARTICLE` becomes the "No such article" error; any other
non-`ARTICLE_RETRIEVED` status becomes the "Unexpected response" error;
otherwise the lines are split into headers and body. -/
def articleHandler : Except NntpError Response → Except NntpError ArticleResult
  | .error e => .error e
  | .ok r =>
    if r.status = NO_SUCH_ARTICLE then .error .noSuchArticle
    else if r.status ≠ ARTICLE_RETRIEVED then .error (.unexpectedResponse r.status r.message)
    else
      let (hs, bs) := articleSplit false r.lines
      .ok { headers := hs, body := bs }

/-- The session state the claims are about: `NNTP.isConnected`. -/
structure SessionState where
  isConnected : Bool
deriving DecidableEq

/-- `NNTP.connect`'s response callback: whatever `getResponse` delivered
(greeting or error), set `self.isConnected = true` and then hand the
outcome to the caller's callback unchanged.  The returned pair is the
session state in force when the callback runs together with the
delivered outcome. -/
def connectHandler (s : SessionState) (out : Except NntpError Response) :
    SessionState × Except NntpError Response :=
  ({ s with isConnected := true }, out)

/-! ## Overview parsing (`parseOverview`, `NNTP.xover`, `NNTP.xzver`) -/

/-- JS `messagePart.substring(messagePart.indexOf(':') + 1)`: everything
after the first colon, or the whole string when there is no colon
(`indexOf` returns `-1`, so `substring(0)`). -/
def afterFirstColon (l : List Char) : List Char :=
  match l.findIdx? (· = ':') with
  | some i => l.drop (i + 1)
  | none => l

/-- The per-field value in `parseOverview`: a "full" field takes the
substring after the token's first colon, trimmed; a "short" field takes
the raw token. -/
def parseField (full : Bool) (tok : List Char) : List Char :=
  if full then jsTrim (afterFirstColon tok) else tok

/-- The `for (var field in format)` loop of `parseOverview` over one
line's tokens: each field shifts the next token off the front.  Shifting
from an exhausted array yields JS `undefined`; a short field then stores
`undefined` (`none`), while a full field calls `.substring` on
`undefined`, which throws — the `domain` turns that into an error
resolution, modelled as `none` for the whole line. -/
def goFields : List (String × Bool) → List (List Char) →
    Option (List (String × Option (List Char)))
  | [], _ => some []
  | (_, true) :: _, [] => none
  | (f, false) :: fs, [] => (goFields fs []).map (fun r => (f, none) :: r)
  | (f, full) :: fs, t :: ts =>
    (goFields fs ts).map (fun r => (f, some (parseField full t)) :: r)

/-- `parseOverview`'s treatment of one response line: split it on tabs and
consume the tokens with the format's fields in order. -/
def parseOverviewLine (format : List (String × Bool)) (line : List Char) :
    Option (List (String × Option (List Char))) :=
  goFields format (splitOnChar '\t' line)

/-- `parseOverview(overview, format)`: one field mapping per line, in line
order; a thrown exception on any line fails the whole operation. -/
def parseOverview (lines : List (List Char)) (format : List (String × Bool)) :
    Option (List (List (String × Option (List Char)))) :=
  lines.mapM (parseOverviewLine format)

/-- `xtend({number: false}, format)` as used by `NNTP.xover` and
`NNTP.xzver`: a fresh object whose first-inserted key is `number` with
value `false`, then the caller's keys assigned in their order — an
assignment to an existing key overwrites its value but keeps its
(first) position, so a caller-supplied `number` key overrides the value
`false` while staying in front. -/
def xtendNumber (format : List (String × Bool)) : List (String × Bool) :=
  ("number", ((format.lookup "number").getD false)) ::
    format.filter (fun p => p.1 ≠ "number")

/-- What `NNTP.xover` (and `NNTP.xzver`, after decompression) does with
the response lines: parse them against the extended format. -/
def xoverParse (lines : List (List Char)) (format : List (String × Bool)) :
    Option (List (List (String × Option (List Char)))) :=
  parseOverview lines (xtendNumber format)

/-- Building a status message from whitespace-free tokens: the tokens
joined by single separator characters (the inverse image of
`splitOnChar sep` on separator-free nonempty token lists). -/
def joinSep (sep : Char) : List (List Char) → List Char
  | [] => []
  | [t] => t
  | t :: ts => t ++ sep :: joinSep sep ts

/-! ## Behaviour checks on concrete inputs -/

example :
    parseOverviewLine [("subject", false), ("from", true)] ("42\tHello\tFrom: a@b").data =
      some [("subject", some ("42").data), ("from", some ("Hello").data)] := by decide

example :
    parseOverviewLine (xtendNumber [("subject", false), ("from", true)])
        ("7\t42\tHello\tFrom: a@b").data =
      some [("number", some ("7").data), ("subject", some ("42").data),
        ("from", some ("Hello").data)] := by decide

example :
    parseOverviewLine (xtendNumber [("number", true)]) ("a: b").data =
      some [("number", some ['b'])] := by decide

example :
    groupHandler (.ok ⟨211, ("3 100 102 misc.test").data, []⟩) =
      .ok ⟨some ("misc.test").data, some 3, some 100, some 102⟩ := by decide

example :
    groupHandler (.ok ⟨211, ("3 100 102").data, []⟩) =
      .ok ⟨none, some 3, some 100, some 102⟩ := by decide

/-! ## Helper lemmas -/

theorem splitCRLF_no_crlf (l : List Char) (h : hasCRLF l = false) : splitCRLF l = [l] := by
  induction l using splitCRLF.induct with
  | case1 => rfl
  | case2 c => rfl
  | case3 c d rest hcond ih =>
    exfalso
    simp [hasCRLF, hcond.1, hcond.2] at h
  | case4 c d rest hcond ih =>
    have hr : hasCRLF (d :: rest) = false := by
      simp [hasCRLF] at h
      exact h.2
    simp only [splitCRLF, if_neg hcond, ih hr, List.headD, List.tail]

theorem splitOnChar_no_sep (sep : Char) (t : List Char) (h : ∀ c ∈ t, ¬c = sep) :
    splitOnChar sep t = [t] := by
  induction t with
  | nil => rfl
  | cons c t ih =>
    have hc : ¬c = sep := h c (List.mem_cons_self c t)
    have ht : ∀ c ∈ t, ¬c = sep := fun x hx => h x (List.mem_cons_of_mem c hx)
    simp only [splitOnChar, if_neg hc, ih ht, List.headD, List.tail]

theorem splitOnChar_append_sep (sep : Char) (t rest : List Char) (h : ∀ c ∈ t, ¬c = sep) :
    splitOnChar sep (t ++ sep :: rest) = t :: splitOnChar sep rest := by
  induction t with
  | nil => simp [splitOnChar]
  | cons c t ih =>
    have hc : ¬c = sep := h c (List.mem_cons_self c t)
    have ht : ∀ c ∈ t, ¬c = sep := fun x hx => h x (List.mem_cons_of_mem c hx)
    simp only [List.cons_append, splitOnChar, if_neg hc, List.append_eq]
    rw [ih ht]
    rfl

theorem splitOnChar_joinSep (sep : Char) (toks : List (List Char)) (hne : toks ≠ [])
    (h : ∀ t ∈ toks, ∀ c ∈ t, ¬c = sep) :
    splitOnChar sep (joinSep sep toks) = toks := by
  induction toks with
  | nil => exact absurd rfl hne
  | cons t ts ih =>
    cases ts with
    | nil =>
      exact splitOnChar_no_sep sep t (h t (List.mem_cons_self t []))
    | cons t2 ts2 =>
      have hj : joinSep sep (t :: t2 :: ts2) = t ++ sep :: joinSep sep (t2 :: ts2) := rfl
      rw [hj, splitOnChar_append_sep sep t _ (h t (List.mem_cons_self t _)),
        ih (by simp) (fun x hx => h x (List.mem_cons_of_mem t hx))]

theorem term_isSuffixOf_append (x : List Char) : TERM.isSuffixOf (x ++ TERM) = true := by
  simp [List.isSuffixOf_iff_suffix]

theorem take_append_term (x : List Char) : (x ++ TERM).take ((x ++ TERM).length - 3) = x := by
  have h : (x ++ TERM).length - 3 = x.length := by simp [TERM]
  rw [h, List.take_left]

theorem jsTrim_dotline (w : List Char) (hlast : (w.reverse.headD '.').isWhitespace = false) :
    jsTrim (('.' :: '.' :: w) ++ ['\r', '\n']) = '.' :: '.' :: w := by
  have hdot : ('.' : Char).isWhitespace = false := by decide
  have key : List.dropWhile Char.isWhitespace (w.reverse ++ ['.', '.']) =
      w.reverse ++ ['.', '.'] := by
    cases hrev : w.reverse with
    | nil => decide
    | cons a as =>
      rw [hrev] at hlast
      have ha : a.isWhitespace = false := by simpa using hlast
      simp [List.dropWhile_cons, ha]
  have L1 : List.dropWhile Char.isWhitespace (('.' :: '.' :: w) ++ ['\r', '\n']) =
      ('.' :: '.' :: w) ++ ['\r', '\n'] := by
    simp [List.dropWhile_cons, hdot]
  unfold jsTrim
  rw [L1, List.reverse_append]
  have h2 : ('.' :: '.' :: w).reverse = w.reverse ++ ['.', '.'] := by simp
  have h3 : (['\r', '\n'] : List Char).reverse = ['\n', '\r'] := by decide
  rw [h2, h3]
  have h4 : (['\n', '\r'] : List Char) ++ (w.reverse ++ ['.', '.']) =
      '\n' :: '\r' :: (w.reverse ++ ['.', '.']) := rfl
  rw [h4]
  rw [List.dropWhile_cons, List.dropWhile_cons]
  simp only [show ('\n' : Char).isWhitespace = true from by decide,
    show ('\r' : Char).isWhitespace = true from by decide, if_true]
  rw [key]
  simp [List.reverse_append, List.reverse_reverse]

theorem framerRun_all_chunks (body : List Char) (hterm : TERM.isSuffixOf body = true) :
    ∀ (cs : List (List Char)) (buf : List Char), cs ≠ [] → buf ++ cs.flatten = body →
      (∀ i : Nat, i + 1 < cs.length → TERM.isSuffixOf (buf ++ (cs.take (i + 1)).flatten) = false) →
      framerRun buf cs = some (emitLines body) := by
  intro cs
  induction cs with
  | nil => intro buf h; exact absurd rfl h
  | cons c cs ih =>
    intro buf _ hjoin hpre
    cases cs with
    | nil =>
      have hb : buf ++ c = body := by simpa using hjoin
      simp only [framerRun, hb, hterm, if_true]
    | cons d ds =>
      have h0 : TERM.isSuffixOf (buf ++ c) = false := by
        have h1 := hpre 0 (by simp)
        simpa using h1
      simp only [framerRun, h0, if_false, Bool.false_eq_true]
      apply ih (buf ++ c)
      · simp
      · rw [← hjoin]; simp [List.append_assoc]
      · intro i hi
        have h2 := hpre (i + 1) (by simpa using Nat.succ_lt_succ hi)
        simpa [List.append_assoc] using h2

theorem framerRun_term_only (cs : List (List Char)) : ∀ buf : List Char, cs ≠ [] →
    buf ++ cs.flatten = TERM → framerRun buf cs = some [[]] := by
  induction cs with
  | nil => intro buf h; exact absurd rfl h
  | cons c cs ih =>
    intro buf _ hjoin
    have hjoin' : (buf ++ c) ++ cs.flatten = TERM := by rw [← hjoin]; simp
    cases hfire : TERM.isSuffixOf (buf ++ c) with
    | true =>
      obtain ⟨t, ht⟩ := (List.isSuffixOf_iff_suffix).mp hfire
      rw [← ht] at hjoin'
      have hlen := congrArg List.length hjoin'
      simp [TERM] at hlen
      have ht0 : t = [] := List.eq_nil_of_length_eq_zero (by omega)
      have hbc : buf ++ c = TERM := by rw [← ht, ht0]; rfl
      simp only [framerRun, hfire, if_true]
      rw [hbc]
      decide
    | false =>
      have hcs : cs ≠ [] := by
        intro h0
        subst h0
        have hbc : buf ++ c = TERM := by simpa using hjoin'
        rw [hbc] at hfire
        exact absurd hfire (by decide)
      simp only [framerRun, hfire, if_false, Bool.false_eq_true]
      exact ih (buf ++ c) hcs hjoin'

/-! ## Theorems for the claims -/

/-- Claim C4 counterexample: with format `subject` (short) then `from`
(full) and the line `42 TAB Hello TAB From: a@b`, the in-order token
mapping assigns the second token `Hello` to `from` (it has no colon, so
the whole token is taken), not `a@b` as the claim states. -/
theorem claim4_cex :
    parseOverviewLine [("subject", false), ("from", true)] ("42\tHello\tFrom: a@b").data =
      some [("subject", some ("42").data), ("from", some ("Hello").data)] ∧
    parseOverviewLine [("subject", false), ("from", true)] ("42\tHello\tFrom: a@b").data ≠
      some [("subject", some ("42").data), ("from", some ("a@b").data)] := by decide

/-- Claim C4, amended: with format `subject` (short) then `from` (full),
the line `42 TAB Hello TAB From: a@b` maps its tab-separated tokens to
the format keys in order — the first token gives `subject = "42"`
verbatim, and the second token gives `from = "Hello"` (the substring of
`Hello` after its first colon is the whole token, since it contains no
colon); the third token `From: a@b` is never consumed. -/
theorem claim4_amended :
    parseOverviewLine [("subject", false), ("from", true)] ("42\tHello\tFrom: a@b").data =
      some [("subject", some ("42").data), ("from", some ("Hello").data)] := by decide

/-- Claim C5 counterexample: a `head`/`stat` response with status 430
("no such article" per the spec) is delivered as a plain success carrying
the raw response — not mapped to the no-such-article error. -/
theorem claim5_cex :
    headHandler (.ok ⟨430, [], []⟩) = .ok ⟨430, [], []⟩ ∧
    statHandler (.ok ⟨430, [], []⟩) = .ok ⟨430, [], []⟩ ∧
    headHandler (.ok ⟨430, [], []⟩) ≠ .error .noSuchArticle ∧
    statHandler (.ok ⟨430, [], []⟩) ≠ .error .noSuchArticle := by decide

/-- Claim C5, amended: `head` and `stat` perform no status inspection at
all — every response, whatever its status, is delivered unchanged as a
success, and only an error already produced by `getResponse` (transport
or pipeline failure) is forwarded as an error. -/
theorem claim5_amended (out : Except NntpError Response) :
    headHandler out = out ∧ statHandler out = out := by
  cases out <;> simp [headHandler, statHandler]

/-- Claim C7: an `article` response with status 430 resolves with the
no-such-article error (and in particular never with the generic
unexpected-response error). -/
theorem claim7_article_430 (msg : List Char) (lines : List (List Char)) :
    articleHandler (.ok ⟨430, msg, lines⟩) = .error .noSuchArticle := by
  simp [articleHandler, NO_SUCH_ARTICLE]

/-- Claim C10: whatever outcome `connect` awaits (greeting or error), the
session state in force when the caller's callback runs has
`isConnected = true`, and the outcome is handed over unchanged. -/
theorem claim10_connect_sets_flag (s : SessionState) (out : Except NntpError Response) :
    (connectHandler s out).1.isConnected = true ∧ (connectHandler s out).2 = out := by
  simp [connectHandler]

/-- Claim C1 counterexample: the identical bytes `foo. CRLF bar CRLF . CRLF`
delivered as one chunk versus split after the first line give different
outputs — the split delivery makes the buffer end with `. CR LF` after the
first chunk, so the framer terminates early. -/
theorem claim1_cex :
    ([("foo.\r\n").data, ("bar\r\n.\r\n").data] : List (List Char)).flatten =
        ([("foo.\r\nbar\r\n.\r\n").data] : List (List Char)).flatten ∧
    framerRun [] [("foo.\r\n").data, ("bar\r\n.\r\n").data] ≠
      framerRun [] [("foo.\r\nbar\r\n.\r\n").data] := by decide

/-- Claim C1, amended: for a body terminated by `.` CR LF, every chunking
in which no proper chunk boundary leaves the accumulated buffer ending in
`.` CR LF produces the output of delivering the body whole,
`emitLines body` — so the output is independent of any such chunking.  (A
boundary placed right after an inner line that ends in a dot violates the
side condition and changes the output, as the counterexample shows.) -/
theorem claim1_amended (body : List Char) (cs : List (List Char))
    (hne : cs ≠ []) (hjoin : cs.flatten = body)
    (hterm : TERM.isSuffixOf body = true)
    (hpre : ∀ i : Nat, i + 1 < cs.length →
      TERM.isSuffixOf ((cs.take (i + 1)).flatten) = false) :
    framerRun [] cs = some (emitLines body) := by
  apply framerRun_all_chunks body hterm cs [] hne (by simpa using hjoin)
  intro i hi
  simpa using hpre i hi

/-- Witness for C1: the body `a CRLF . CRLF` split into two chunks not
ending in the terminator early emits exactly the line `a`. -/
theorem claim1_witness :
    framerRun [] [['a'], ['\r', '\n', '.', '\r', '\n']] = some [['a']] := by
  have h := claim1_amended ("a\r\n.\r\n").data [['a'], ['\r', '\n', '.', '\r', '\n']]
    (by decide) (by decide) (by decide)
    (fun i hi => by
      have h0 : i = 0 := by simp at hi; omega
      subst h0
      decide)
  exact h.trans (by decide)

/-- Claim C2 counterexample: the dot-stuffed body line `..` (wire bytes
`.. CRLF . CRLF`) is emitted as `..` — both dots intact — not unescaped to
`.` as the claim states. -/
theorem claim2_cex :
    framerRun [] [("..\r\n.\r\n").data] = some [['.', '.']] ∧
    framerRun [] [("..\r\n.\r\n").data] ≠ some [['.']] := by decide

/-- Claim C2, amended: the framer emits a dot-stuffed wire line verbatim,
with the doubled leading dot intact — no unescaping is performed anywhere
(neither the framer nor the response parser removes the extra dot).  For
any CRLF-free line content `'.' :: '.' :: w` not ending in whitespace,
delivering that line plus CR LF plus the terminator emits exactly the
unmodified wire line. -/
theorem claim2_amended (w : List Char)
    (hnc : hasCRLF ('.' :: '.' :: w) = false)
    (hlast : (w.reverse.headD '.').isWhitespace = false) :
    framerRun [] [(('.' :: '.' :: w) ++ ['\r', '\n']) ++ TERM] = some ['.' :: '.' :: w] := by
  have hsuf := term_isSuffixOf_append (('.' :: '.' :: w) ++ ['\r', '\n'])
  simp only [framerRun, List.nil_append, hsuf, if_true]
  unfold emitLines
  rw [take_append_term, jsTrim_dotline w hlast, splitCRLF_no_crlf _ hnc]

/-- Witness for C2: the dot-stuffed line `..a` is emitted as `..a`. -/
theorem claim2_witness :
    hasCRLF ('.' :: '.' :: ['a']) = false ∧
    framerRun [] [(('.' :: '.' :: ['a']) ++ ['\r', '\n']) ++ TERM] =
      some ['.' :: '.' :: ['a']] :=
  ⟨by decide, claim2_amended ['a'] (by decide) (by decide)⟩

/-- Claim C3 counterexample: the terminator-only input `.` CR LF makes the
framer emit a sequence containing one empty line, not the empty
sequence the claim states (`"".split` yields `[""]` in JS, and the
`trim` does not remove it). -/
theorem claim3_cex :
    framerRun [] [TERM] = some [[]] ∧ framerRun [] [TERM] ≠ some [] := by decide

/-- Claim C3, amended: when the buffered bytes consist solely of the
terminator `.` CR LF (delivered in any chunking), the framer emits a
sequence containing exactly one empty string — not an empty sequence. -/
theorem claim3_amended (cs : List (List Char)) (hne : cs ≠ []) (hjoin : cs.flatten = TERM) :
    framerRun [] cs = some [[]] :=
  framerRun_term_only cs [] hne (by simpa using hjoin)

/-- Witness for C3: the terminator split into chunks `.` and CR LF emits
one empty line. -/
theorem claim3_witness :
    ([['.'], ['\r', '\n']] : List (List Char)).flatten = TERM ∧
    framerRun [] [['.'], ['\r', '\n']] = some [[]] :=
  ⟨by decide, claim3_amended [['.'], ['\r', '\n']] (by decide) (by decide)⟩

/-- Claim C6 counterexample: a `group` success response whose message has
only three tokens (`3 100 102`) is resolved as a structured success with
an undefined `name` and the three numbers — not with a parse error. -/
theorem claim6_cex :
    groupHandler (.ok ⟨211, ("3 100 102").data, []⟩) =
      .ok ⟨none, some 3, some 100, some 102⟩ ∧
    (groupHandler (.ok ⟨211, ("3 100 102").data, []⟩)).isOk = true := by decide

/-- Claim C6, amended: on a success status `group` splits the message on
single spaces and reads the fields positionally — `name` from token 4
taken verbatim, `count`/`first`/`last` as `parseInt` of tokens 1–3; extra
tokens beyond the fourth are ignored, and a message with fewer than four
tokens still resolves as a structured success whose missing fields are
undefined (`none`) — not with a parse error. -/
theorem claim6_amended (toks : List (List Char)) (lines : List (List Char))
    (hne : toks ≠ []) (hsp : ∀ t ∈ toks, ∀ c ∈ t, ¬c = ' ') :
    groupHandler (.ok ⟨GROUP_SELECTED, joinSep ' ' toks, lines⟩) =
      .ok ⟨toks[3]?, jsParseIntOpt toks[0]?, jsParseIntOpt toks[1]?, jsParseIntOpt toks[2]?⟩ := by
  simp [groupHandler, GROUP_SELECTED, NO_SUCH_GROUP,
    splitOnChar_joinSep ' ' toks hne hsp]

/-- Witness for C6: the spec's own example message `3 100 102 misc.test`
yields name `misc.test`, count 3, first 100, last 102. -/
theorem claim6_witness :
    (∀ t ∈ [("3").data, ("100").data, ("102").data, ("misc.test").data],
      ∀ c ∈ t, ¬c = ' ') ∧
    groupHandler (.ok ⟨GROUP_SELECTED,
        joinSep ' ' [("3").data, ("100").data, ("102").data, ("misc.test").data], []⟩) =
      .ok ⟨some ("misc.test").data, some 3, some 100, some 102⟩ :=
  ⟨by decide,
    (claim6_amended [("3").data, ("100").data, ("102").data, ("misc.test").data] []
      (by decide) (by decide)).trans (by decide)⟩

theorem articleSplit_inBody (B : List (List Char)) : articleSplit true B = ([], B) := by
  induction B with
  | nil => rfl
  | cons l ls ih =>
    simp [articleSplit, ih]

theorem articleSplit_blocks (H : List (List Char)) (b : List Char) (B : List (List Char))
    (hH : ∀ l ∈ H, jsTrim l ≠ []) (hb : jsTrim b = []) :
    articleSplit false (H ++ b :: B) = (H, B) := by
  induction H with
  | nil =>
    simp [articleSplit, hb, articleSplit_inBody]
  | cons a H ih =>
    have ha : jsTrim a ≠ [] := hH a (List.mem_cons_self a H)
    have hH' : ∀ l ∈ H, jsTrim l ≠ [] := fun l hl => hH l (List.mem_cons_of_mem a hl)
    simp [articleSplit, ha, ih hH']

/-- Claim C8: a successful `article` response whose lines are a headers
block (no blank line in it), one blank line, then arbitrary body lines
splits exactly there: the headers block becomes `headers`, everything
after the blank line (blank lines included) becomes `body`, and the
separating blank line appears in neither half. -/
theorem claim8_article_split (H B : List (List Char)) (b msg : List Char)
    (hH : ∀ l ∈ H, jsTrim l ≠ []) (hb : jsTrim b = []) :
    articleHandler (.ok ⟨ARTICLE_RETRIEVED, msg, H ++ b :: B⟩) = .ok ⟨H, B⟩ := by
  simp [articleHandler, ARTICLE_RETRIEVED, NO_SUCH_ARTICLE,
    articleSplit_blocks H b B hH hb]

/-- Witness for C8: headers `X`, a whitespace-only separator line, then a
body with a further blank line; the separator is consumed once and the
later blank line stays in the body. -/
theorem claim8_witness :
    (∀ l ∈ [("Subject: x").data], jsTrim l ≠ []) ∧ jsTrim [' '] = [] ∧
    articleHandler (.ok ⟨ARTICLE_RETRIEVED, [],
        [("Subject: x").data] ++ [' '] :: [("a").data, [], ("b").data]⟩) =
      .ok ⟨[("Subject: x").data], [("a").data, [], ("b").data]⟩ :=
  ⟨by decide, by decide,
    claim8_article_split [("Subject: x").data] [("a").data, [], ("b").data] [' '] []
      (by decide) (by decide)⟩

theorem lookup_eq_none_of_not_mem (format : List (String × Bool))
    (hn : "number" ∉ format.map Prod.fst) : format.lookup "number" = none := by
  induction format with
  | nil => rfl
  | cons p fs ih =>
    have hp : p.1 ≠ "number" := fun h => hn (by simp [h])
    have hfs : "number" ∉ fs.map Prod.fst := fun h => hn (by simp [h])
    simp [List.lookup, beq_eq_false_iff_ne.mpr (Ne.symm hp), ih hfs]

theorem filter_eq_self_of_not_mem (format : List (String × Bool))
    (hn : "number" ∉ format.map Prod.fst) :
    format.filter (fun p => p.1 ≠ "number") = format := by
  rw [List.filter_eq_self]
  intro p hp
  simp only [ne_eq, decide_not, Bool.not_eq_eq_eq_not, Bool.not_true, decide_eq_false_iff_not]
  intro h
  exact hn (h ▸ List.mem_map_of_mem Prod.fst hp)

/-- Claim C9 counterexample: a caller-supplied format that itself contains
the key `number` marked full overrides the short marking — the first
token `a: b` is parsed as a full field (substring after the colon,
trimmed, giving `b`), not taken verbatim as the claim states. -/
theorem claim9_cex :
    parseOverviewLine (xtendNumber [("number", true)]) ("a: b").data =
      some [("number", some ['b'])] ∧
    parseOverviewLine (xtendNumber [("number", true)]) ("a: b").data ≠
      some [("number", some ("a: b").data)] := by decide

/-- Claim C9, amended: for every format mapping that does not itself
contain the key `number`, `xover`/`xzver` parse each line against the
format extended with a leading `number` field marked short: the line's
first tab-separated token is returned verbatim under `number`, and the
caller's format keys consume the subsequent tokens in order.  (A
caller-supplied `number` key keeps the leading position but its own
full/short marking overrides `short`.) -/
theorem claim9_amended (format : List (String × Bool)) (line t : List Char)
    (ts : List (List Char))
    (hn : "number" ∉ format.map Prod.fst)
    (ht : splitOnChar '\t' line = t :: ts) :
    parseOverviewLine (xtendNumber format) line =
      (goFields format ts).map (fun r => ("number", some t) :: r) := by
  have hx : xtendNumber format = ("number", false) :: format := by
    unfold xtendNumber
    rw [lookup_eq_none_of_not_mem format hn, filter_eq_self_of_not_mem format hn]
    rfl
  rw [parseOverviewLine, hx, ht]
  simp [goFields, parseField]

/-- Witness for C9: format `subject: full` with the line
`42 TAB Re: x` — token `42` is returned verbatim under `number`, and the
subject field consumes the second token. -/
theorem claim9_witness :
    ("number" ∉ ([("subject", true)] : List (String × Bool)).map Prod.fst) ∧
    parseOverviewLine (xtendNumber [("subject", true)]) ("42\tRe: x").data =
      some [("number", some ("42").data), ("subject", some ("x").data)] :=
  ⟨by decide,
    (claim9_amended [("subject", true)] ("42\tRe: x").data ("42").data [("Re: x").data]
      (by decide) (by decide)).trans (by decide)⟩

end Nntp
